import Mathlib

/-!
Verification development for the moderation engine in `src/events/message.py`
(class `MessageEvent`).  The Python code is shallowly embedded: the stateful
MongoDB collection `temporary_actions` becomes an explicit list of events that
is threaded through the operations, wall-clock time (`time.time()`) becomes an
`Int` parameter measured in seconds, and fallible platform actions (message
deletion, member timeout, role edits) become explicit success flags.  The
storage layer (`add_warning`, `get_timeout_duration`) is not part of the given
sources; those two functions are modelled from the specification and are marked
as such in their doc comments.
-/

/-- Configuration constant from `MessageEvent.__init__`: number of messages in a
short time that triggers anti-raid handling (`self.raid_threshold = 5`). -/
def raid_threshold : Nat := 5

/-- Configuration constant: anti-raid time window in seconds
(`self.raid_timeframe = 5`). -/
def raid_timeframe : Int := 5

/-- Configuration constant: number of similar messages that triggers a spam
warning (`self.spam_threshold = 5`). -/
def spam_threshold : Nat := 5

/-- Configuration constant: spam detection window in seconds
(`self.spam_timeframe = 30`). -/
def spam_timeframe : Int := 30

/-- Configuration constant: maximum mentions allowed in a message
(`self.max_mentions = 5`). -/
def max_mentions : Nat := 5

/-- One document of the `temporary_actions` collection, as written by
`check_for_spam` (action type `spam_check`, with a content hash) and by
`check_for_raid_activity` (action type `message`, no content hash: modelled
as hash 0, which no query of the raid path inspects). -/
structure TimedEvent where
  guild_id : Nat
  user_id : Nat
  action_type : String
  content_hash : Int
  timestamp : Int
  expires_at : Int
deriving DecidableEq

/-- The document inserted by `check_for_spam` at time `now`:
`expires_at = current_time + self.spam_timeframe`. -/
def spamEvent (g u : Nat) (h now : Int) : TimedEvent :=
  ⟨g, u, "spam_check", h, now, now + spam_timeframe⟩

/-- The document inserted by `check_for_raid_activity` at time `now`:
`expires_at = current_time + self.raid_timeframe`. -/
def raidEvent (g u : Nat) (now : Int) : TimedEvent :=
  ⟨g, u, "message", 0, now, now + raid_timeframe⟩

/-- The query filter of the spam path: same guild, same user, action type
`spam_check`, same content hash. -/
def spamMatch (g u : Nat) (h : Int) (e : TimedEvent) : Bool :=
  (e.guild_id == g) && (e.user_id == u) && (e.action_type == "spam_check")
    && (e.content_hash == h)

/-- The query filter of the raid path: same guild, same user, action type
`message` (the content hash is not part of the query). -/
def raidMatch (g u : Nat) (e : TimedEvent) : Bool :=
  (e.guild_id == g) && (e.user_id == u) && (e.action_type == "message")

/-- Predicate of the spam count query
(`"timestamp": \x7b"$gte": current_time - self.spam_timeframe\x7d`). -/
def spamLiveAt (g u : Nat) (h now : Int) (e : TimedEvent) : Bool :=
  spamMatch g u h e && decide (now - spam_timeframe ≤ e.timestamp)

/-- Predicate of the raid count query
(`"timestamp": \x7b"$gte": cutoff_time\x7d` with
`cutoff_time = current_time - self.raid_timeframe`). -/
def raidLiveAt (g u : Nat) (now : Int) (e : TimedEvent) : Bool :=
  raidMatch g u e && decide (now - raid_timeframe ≤ e.timestamp)

/-- Predicate of the raid cleanup query
(`delete_many` with `"timestamp": \x7b"$lt": cutoff_time\x7d`). -/
def raidDeadAt (g u : Nat) (now : Int) (e : TimedEvent) : Bool :=
  raidMatch g u e && decide (e.timestamp < now - raid_timeframe)

/-- Result of one run of `check_for_spam`: the updated collection, the value of
`similar_count`, and whether the spam warning was issued
(`similar_count >= self.spam_threshold`). -/
structure SpamResult where
  store : List TimedEvent
  count : Nat
  warned : Bool
deriving DecidableEq

/-- `MessageEvent.check_for_spam`, lines 456-492 of `src/events/message.py`
(the detection part, up to the warning decision).  The code inserts the new
document first and then counts matching documents in the timeframe; it never
deletes anything from the collection. -/
def check_for_spam (s : List TimedEvent) (g u : Nat) (h now : Int) : SpamResult :=
  let s' := s ++ [spamEvent g u h now]
  let cnt := (s'.filter (spamLiveAt g u h now)).length
  ⟨s', cnt, decide (spam_threshold ≤ cnt)⟩

/-- An action requested of the platform by a moderation check. -/
inductive ModAction where
  | warnMessage (category : String)
  | deleteMessage
  | timeout (seconds : Nat)
  | roleSwap
deriving DecidableEq

/-- Result of one run of `check_for_raid_activity`: the updated collection, the
value of `message_count`, the platform actions applied, and the boolean the
function returns (`True` only when the threshold was met and the timeout call
did not raise). -/
structure RaidResult where
  store : List TimedEvent
  count : Nat
  actions : List ModAction
  handled : Bool
deriving DecidableEq

/-- `MessageEvent.check_for_raid_activity`, lines 718-810 of
`src/events/message.py`.  The code first deletes outdated records of the same
scope (`timestamp < cutoff_time`), then inserts the new document, then counts
matching documents with `timestamp >= cutoff_time`; when the count reaches
`raid_threshold` it times the user out for 5 minutes (300 seconds) and returns
`True`.  A failure of the timeout call is caught and the function returns
`False`; `timeoutOk` models whether that platform call succeeds. -/
def check_for_raid_activity (s : List TimedEvent) (g u : Nat) (now : Int)
    (timeoutOk : Bool) : RaidResult :=
  let s' := s.filter (fun e => !(raidDeadAt g u now e)) ++ [raidEvent g u now]
  let cnt := (s'.filter (raidLiveAt g u now)).length
  let fired := decide (raid_threshold ≤ cnt) && timeoutOk
  ⟨s', cnt, if fired then [ModAction.timeout 300] else [], fired⟩

/-- Well-formedness of the event collection: every document carries the
`expires_at` value that its writer computes from its timestamp.  Both writers
in the source maintain this. -/
def storeWellFormed (s : List TimedEvent) : Prop :=
  ∀ e ∈ s,
    (e.action_type = "spam_check" → e.expires_at = e.timestamp + spam_timeframe) ∧
    (e.action_type = "message" → e.expires_at = e.timestamp + raid_timeframe)

/-- Runs `check_for_spam` once per listed arrival time, threading the
collection, and collects the warning flags in order. -/
def runSpamSequence (g u : Nat) (h : Int) :
    List Int → List TimedEvent → List TimedEvent × List Bool
  | [], s => (s, [])
  | t :: ts, s =>
    let r := check_for_spam s g u h t
    let rest := runSpamSequence g u h ts r.store
    (rest.1, r.warned :: rest.2)

/-- A word character of the regex `\b\w+\b`, on the ASCII range used by the
message texts considered here: letters, digits, underscore. -/
def wordChar (c : Char) : Bool := c.isAlphanum || c == '_'

/-- Helper of `findWordRuns`: the accumulator holds the current run reversed. -/
def findWordRunsAux : List Char → List Char → List (List Char)
  | [], acc => if acc.isEmpty then [] else [acc.reverse]
  | c :: cs, acc =>
    if wordChar c then findWordRunsAux cs (c :: acc)
    else if acc.isEmpty then findWordRunsAux cs []
    else acc.reverse :: findWordRunsAux cs []

/-- `re.findall (backslash b backslash w plus backslash b, content)`: the
maximal runs of word characters, in order. -/
def findWordRuns (l : List Char) : List (List Char) := findWordRunsAux l []

/-- Lowercasing of a character list (`str.lower`, ASCII range). -/
def lowerChars (l : List Char) : List Char := l.map Char.toLower

/-- Whitespace as stripped by `str.strip`: space, tab, newline, carriage
return, vertical tab, form feed. -/
def pyWhitespace (c : Char) : Bool :=
  c == ' ' || c == '\t' || c == '\n' || c == '\r' || c.toNat == 11 || c.toNat == 12

/-- `str.strip`: drop leading and trailing whitespace. -/
def stripChars (l : List Char) : List Char :=
  ((l.dropWhile pyWhitespace).reverse.dropWhile pyWhitespace).reverse

/-- The `leet_map` substitution of method 2 of `check_for_curse_words`.  The
source applies `str.replace` once per single-character key in dictionary
order; since no value is itself a key, that sequence of replacements is the
same as this pointwise substitution. -/
def leetChar (c : Char) : Char :=
  if c == '0' then 'o'
  else if c == '1' then 'i'
  else if c == '3' then 'e'
  else if c == '4' then 'a'
  else if c == '5' then 's'
  else if c == '6' then 'g'
  else if c == '7' then 't'
  else if c == '8' then 'b'
  else if c == '@' then 'a'
  else if c == '$' then 's'
  else c

/-- Method 3 preprocessing: `content.replace(" ", "").replace("-", "")
.replace("_", "").replace(".", "")` — removal of four single characters,
equal to one pass of filtering them out. -/
def despace (l : List Char) : List Char :=
  l.filter (fun c => !(c == ' ' || c == '-' || c == '_' || c == '.'))

/-- Whether `needle` is a leading segment of `hay`. -/
def listLeads : List Char → List Char → Bool
  | [], _ => true
  | _ :: _, [] => false
  | p :: ps, x :: xs => p == x && listLeads ps xs

/-- Substring containment (`curse_word in no_spaces` on strings). -/
def listInfixOf (needle : List Char) : List Char → Bool
  | [] => listLeads needle []
  | x :: xs => listLeads needle (x :: xs) || listInfixOf needle xs

/-- Method 1 of `check_for_curse_words`: for each token of the message, append
it when its lowercase form is in the banned list and it was not already
collected. -/
def method1 (local_curse_words words : List (List Char)) : List (List Char) :=
  words.foldl
    (fun acc w =>
      if local_curse_words.contains (lowerChars w) && !acc.contains w
      then acc ++ [w] else acc)
    []

/-- Method 2 of `check_for_curse_words`, run on the tokens of the
leet-normalized content.  When a normalized token is in the banned list the
source appends `words[words.index(word)]` when the token also occurs among the
original tokens and the token itself otherwise; both branches append a string
equal to the token, so the appended value is the token. -/
def method2 (local_curse_words normalized_words : List (List Char)) :
    List (List Char) :=
  normalized_words.foldl
    (fun acc w =>
      if local_curse_words.contains (lowerChars w) && !acc.contains w
      then acc ++ [w] else acc)
    []

/-- Method 3 of `check_for_curse_words`: append every banned term contained in
the despaced content. -/
def method3 (local_curse_words : List (List Char)) (no_spaces : List Char) :
    List (List Char) :=
  local_curse_words.foldl
    (fun acc cw =>
      if listInfixOf cw no_spaces && !acc.contains cw then acc ++ [cw] else acc)
    []

/-- Consume an expected literal character sequence from the front of a list;
`none` when it does not lead the list. -/
def consumeChars : List Char → List Char → Option (List Char)
  | [], l => some l
  | _ :: _, [] => none
  | p :: ps, x :: xs => if x == p then consumeChars ps xs else none

/-- One anchored attempt of the method-4 regex of `check_for_curse_words`.
The source builds the pattern with the f-string
`f"\x7bfirst_char\x7d.\x7b\x7b\x7b1,\x7bmiddle_len\x7d\x7d\x7d\x7d?\x7blast_char\x7d"`;
inside the f-string the span `\x7b1,\x7bmiddle_len\x7d\x7d` is one replacement
field whose expression is the tuple `(1, \x7bmiddle_len\x7d)`, so for a term
with first character `c1`, last character `c2` and interior length `m` the
produced pattern text is `c1.\x7b(1, \x7bm\x7d)\x7d?c2`.  As a regular
expression that is: `c1`, then any character except newline, then the group
`(1, \x7bm\x7d)` — the literal `1,` followed by exactly `m` spaces (the brace
pair quantifies the preceding space) — then an optional literal closing brace,
then `c2`.  This function decides whether that expression matches at the head
of `l`. -/
def method4MatchAt (c1 c2 : Char) (m : Nat) (l : List Char) : Bool :=
  match l with
  | x :: y :: rest =>
    x == c1 && y != '\n' &&
      (match consumeChars (('\x7b' :: '1' :: ',' :: []) ++ List.replicate m ' ') rest with
       | some r =>
         (match r with
          | '\x7d' :: z :: _ => z == c2
          | _ => false) ||
         (match r with
          | z :: _ => z == c2
          | _ => false)
       | none => false)
  | _ => false

/-- `re.findall` scan for `method4MatchAt`: does the pattern match anywhere? -/
def method4Scan (c1 c2 : Char) (m : Nat) : List Char → Bool
  | [] => false
  | x :: xs => method4MatchAt c1 c2 m (x :: xs) || method4Scan c1 c2 m xs

/-- Method 4 of `check_for_curse_words` for one banned term: only terms longer
than 3 characters are tried; a term is reported when the pattern above matches
the content and the found capture passes the length check
`len(match) >= len(curse_word) * 0.7`.  `re.findall` on a pattern with one
group returns the group captures, and every capture of this pattern is the
text `1,` followed by `m` spaces, of length `m + 2`; the integer comparison
below is that check with both sides scaled by 10. -/
def method4Matches (term content : List Char) : Bool :=
  if 3 < term.length then
    match term, term.getLast? with
    | c1 :: _, some c2 =>
      let m := term.length - 2
      method4Scan c1 c2 m content && decide (7 * term.length ≤ 10 * (m + 2))
    | _, _ => false
  else false

/-- Method 4 of `check_for_curse_words` over the banned list: each matching
term is appended once (the inner `break` only stops re-checking further
captures of the same term). -/
def method4 (local_curse_words : List (List Char)) (content : List Char) :
    List (List Char) :=
  local_curse_words.foldl
    (fun acc cw => if method4Matches cw content then acc ++ [cw] else acc)
    []

/-- The detection part of `MessageEvent.check_for_curse_words`, lines 160-234.
`fileRead` is the outcome of reading `curse.txt`: `none` means the read (or
anything after it inside the same `try`) raised, in which case the handler of
line 229 leaves `curse_words` empty; `some fileLines` is the list of raw lines.
Methods 2, 3 and 4 each run only while no earlier method found anything. -/
def detect_curse_words (fileRead : Option (List String)) (rawContent : String) :
    List String :=
  match fileRead with
  | none => []
  | some fileLines =>
    let content := lowerChars rawContent.data
    let local_curse_words := fileLines.map (fun l => lowerChars (stripChars l.data))
    let words := findWordRuns content
    let m1 := method1 local_curse_words words
    let cw :=
      if !m1.isEmpty then m1
      else
        let m2 := method2 local_curse_words (findWordRuns (content.map leetChar))
        if !m2.isEmpty then m2
        else
          let m3 := method3 local_curse_words (despace content)
          if !m3.isEmpty then m3
          else method4 local_curse_words content
    cw.map (fun l => String.mk l)

/-- Modelled from the spec: the storage layer is not under `src/` (only its
callers are).  Section 4.5 specifies `addWarning(community, user, category,
term) -> newCount` as appending one record and returning the updated running
total, and section 8 states that it increments the ledger total by exactly 1
per call.  The ledger state relevant to one (community, user) pair is its
current total. -/
def add_warning (prior : Nat) : Nat := prior + 1

/-- Modelled from the spec: the storage layer function `get_timeout_duration`
is not under `src/`.  Section 4.5 specifies `timeoutDurationFor(count)` as a
deterministic, monotonic non-decreasing lookup table returning seconds or 0,
with no timeout at count 1 and timeouts from count 2 on; the duration values
60, 1800, 3600, 7200 and 10800 are the ones the callers in
`src/events/message.py` translate to human-readable text. -/
def get_timeout_duration (warning_count : Nat) : Nat :=
  if warning_count ≤ 1 then 0
  else if warning_count = 2 then 60
  else if warning_count = 3 then 1800
  else if warning_count = 4 then 3600
  else if warning_count = 5 then 7200
  else 10800

/-- The escalation decision of a curse-word violation. -/
inductive EscalationAction where
  | none
  | timeout (seconds : Nat)
  | roleSwap
deriving DecidableEq

/-- The escalation block of `check_for_curse_words`, lines 270-334: when the
duration looked up for the new warning count is positive, a count of 6 or more
removes the member role and adds the demoted role when both roles resolve
(`discord.utils.get` found them) and falls back to a timeout otherwise, and a
count of 2 to 5 applies a timeout of the looked-up duration. -/
def curse_escalation (warning_count : Nat) (targetRoleFound penaltyRoleFound : Bool) :
    EscalationAction :=
  let d := get_timeout_duration warning_count
  if 0 < d then
    if 6 ≤ warning_count then
      if targetRoleFound && penaltyRoleFound then EscalationAction.roleSwap
      else EscalationAction.timeout d
    else if 2 ≤ warning_count then EscalationAction.timeout d
    else EscalationAction.none
  else EscalationAction.none

/-- Observable outcome of one run of `check_for_curse_words`: the returned
boolean, whether the offending message was deleted, the ledger total after the
run (`none` when no record was appended), and the escalation decision. -/
structure CurseResult where
  violation : Bool
  deleted : Bool
  ledger_count : Option Nat
  action : EscalationAction
deriving DecidableEq

/-- `MessageEvent.check_for_curse_words`, lines 154-383, composed from the
detection above: with no detected words the function returns `False` having
touched nothing; when words were detected but `message.delete()` raises
(`deleteOk = false`) the handler of line 239 returns `False` before any ledger
write; otherwise the message is deleted, one warning is recorded
(`storage.add_warning`) and the escalation block runs on the new total. -/
def check_for_curse_words (fileRead : Option (List String)) (content : String)
    (deleteOk targetRoleFound penaltyRoleFound : Bool) (prior_warnings : Nat) :
    CurseResult :=
  let curse_words := detect_curse_words fileRead content
  if curse_words.isEmpty then ⟨false, false, none, EscalationAction.none⟩
  else if !deleteOk then ⟨false, false, none, EscalationAction.none⟩
  else
    let warning_count := add_warning prior_warnings
    ⟨true, true, some warning_count,
      curse_escalation warning_count targetRoleFound penaltyRoleFound⟩

/-- `MessageEvent.check_for_mass_mentions`, lines 385-454: with
`mention_count = len(message.mentions) + len(message.role_mentions)` strictly
above `max_mentions` the user is warned (the message itself is not deleted),
one warning is recorded, and from the 5th recorded warning on a timeout of the
looked-up duration is applied when that duration is positive.  Returns the
requested actions and the ledger total after the run. -/
def check_for_mass_mentions (mentionsCount roleMentionsCount prior_warnings : Nat) :
    List ModAction × Nat :=
  let mention_count := mentionsCount + roleMentionsCount
  if max_mentions < mention_count then
    let warning_count := add_warning prior_warnings
    let escal :=
      if 5 ≤ warning_count then
        let d := get_timeout_duration warning_count
        if 0 < d then [ModAction.timeout d] else []
      else []
    ([ModAction.warnMessage ("mass_mentions")] ++ escal, warning_count)
  else ([], prior_warnings)

/-- The moderation stages of `MessageEvent`, named after the methods that
implement them. -/
inductive Check where
  | curse
  | raid
  | massMentions
  | spam
  | massEmoji
  | excessiveCaps
deriving DecidableEq

/-- The stages `MessageEvent.handle` runs for a message without the command
marker, lines 128-135: the four content checks, unconditionally and with no
short-circuit.  Neither the curse check nor the raid check appears. -/
def plainMessageChecks : List Check :=
  [Check.massMentions, Check.spam, Check.massEmoji, Check.excessiveCaps]

/-- The stages of `MessageEvent.run_moderation_checks`, lines 137-152, in
source order. -/
def backgroundModerationChecks : List Check :=
  [Check.curse, Check.raid, Check.massMentions, Check.spam, Check.massEmoji,
    Check.excessiveCaps]

/-- The inbound-message fields `MessageEvent.handle` consults to decide the
route, lines 36-47. -/
structure InboundMessage where
  author_is_bot : Bool
  content : String
  guild : Option Nat
deriving DecidableEq

/-- `message.content.lower().startswith(self.client.prefix.lower())`. -/
def startsWithLower (marker content : String) : Bool :=
  listLeads (lowerChars marker.data) (lowerChars content.data)

/-- The routing of `MessageEvent.handle`, lines 36-135: bot authors, empty
texts and guild-less messages are dropped before any stage; messages carrying
the command marker run the background stages only when command processing
reaches the `create_task` call of line 127 (`commandReachesModeration`
abstracts the early returns of lines 51-125); all other messages run the four
content stages directly. -/
def handleChecks (marker : String) (msg : InboundMessage)
    (commandReachesModeration : Bool) : List Check :=
  if msg.author_is_bot || msg.content == "" || msg.guild.isNone then []
  else if startsWithLower marker msg.content then
    if commandReachesModeration then backgroundModerationChecks else []
  else plainMessageChecks

/-- The stage list of one `run_moderation_checks` pass as a function of what
its first two stages observed: a curse violation returns after the curse
stage; a handled raid returns after the raid stage; otherwise all six stages
run. -/
def run_moderation_checks_stages (curseViolation raidHandled : Bool) : List Check :=
  if curseViolation then [Check.curse]
  else if raidHandled then [Check.curse, Check.raid]
  else backgroundModerationChecks

/-- The pattern text built at line 218 of `src/events/message.py`.  The
f-string renders its inner replacement field — the tuple expression
`(1, \x7bmiddle_len\x7d)` — with `str`, so for interior length `m` the text
between the literal braces is `(1, \x7bm\x7d)`. -/
def buildFuzzyPattern (term : String) : String :=
  match term.data, term.data.getLast? with
  | c1 :: _, some c2 =>
    String.mk [c1] ++ ".\x7b(1, \x7b" ++ toString (term.length - 2)
      ++ "\x7d)\x7d?" ++ String.mk [c2]
  | _, _ => ""

/-- The pattern the spec describes for the fuzzy strategy: first character,
a bounded-length filler of 1 to `m` characters (non-greedy), last character.
This definition follows the words of the spec and is compared against the one
built by the source. -/
def specFuzzyPattern (term : String) : String :=
  match term.data, term.data.getLast? with
  | c1 :: _, some c2 =>
    String.mk [c1] ++ ".\x7b1," ++ toString (term.length - 2)
      ++ "\x7d?" ++ String.mk [c2]
  | _, _ => ""

/-- One anchored attempt of the pattern the spec describes: the first
character of the term, then `k` filler characters for some `1 ≤ k ≤ m`, then
the last character, accepted only when the matched span `k + 2` is at least
70 percent of the term length. -/
def specFuzzyMatchAt (c1 c2 : Char) (m len : Nat) (l : List Char) : Bool :=
  match l with
  | [] => false
  | x :: rest =>
    x == c1 && (List.range m).any (fun j =>
      match rest.drop (j + 1) with
      | z :: _ => z == c2 && decide (7 * len ≤ 10 * (j + 3))
      | [] => false)

/-- Scan of `specFuzzyMatchAt` over every start position. -/
def specFuzzyScanList (c1 c2 : Char) (m len : Nat) : List Char → Bool
  | [] => false
  | x :: xs => specFuzzyMatchAt c1 c2 m len (x :: xs) || specFuzzyScanList c1 c2 m len xs

/-- The fuzzy strategy as the spec words it, for terms longer than 3
characters.  This definition follows the spec and is compared against
`method4Matches`, the one translated from the source. -/
def specFuzzyMatches (term content : String) : Bool :=
  if 3 < term.length then
    match term.data, term.data.getLast? with
    | c1 :: _, some c2 =>
      specFuzzyScanList c1 c2 (term.length - 2) term.length content.data
    | _, _ => false
  else false

/-- Five successive runs of `check_for_raid_activity` for the same user and
guild at the given times, starting from an empty collection, with every
timeout call succeeding: the scenario of one user sending five messages that
each reach the background moderation pass. -/
def raidBurstRun (g u : Nat) (t0 t1 t2 t3 t4 : Int) : RaidResult :=
  check_for_raid_activity
    (check_for_raid_activity
      (check_for_raid_activity
        (check_for_raid_activity
          (check_for_raid_activity [] g u t0 true).store g u t1 true).store
        g u t2 true).store g u t3 true).store g u t4 true

/-- C8: if reading the banned-term list fails, the curse detector reports no
match and does not raise; the scan completes with no violation and no warning
or deletion occurs.  A failed read is the `none` outcome of the `try` block,
whose handler leaves the detected list empty, so the check returns before any
action. -/
theorem curse_read_failure_fails_open (content : String) (dOk tr pr : Bool)
    (prior : Nat) :
    check_for_curse_words none content dOk tr pr prior
      = ⟨false, false, none, EscalationAction.none⟩ := rfl

/-- C9: a message from a bot author, with empty text, or outside a guild is
dropped by `handle` before any stage: no detector runs on it. -/
theorem handle_ignores_bots_empty_or_guildless (marker : String)
    (msg : InboundMessage) (cmdReaches : Bool)
    (h : msg.author_is_bot = true ∨ msg.content = "" ∨ msg.guild = none) :
    handleChecks marker msg cmdReaches = [] := by
  unfold handleChecks
  rcases h with h | h | h <;> simp [h]

/-- Witness for C9 at a concrete bot-authored message. -/
theorem handle_ignores_bots_empty_or_guildless_witness :
    handleChecks ("!") ⟨true, ("hello"), some 1⟩ false = [] :=
  handle_ignores_bots_empty_or_guildless ("!") ⟨true, ("hello"), some 1⟩ false
    (Or.inl rfl)

/-- C10: in the curse-word path, a failed deletion of the offending message
makes the check return without a violation: no warning is appended to the
ledger and no timeout or role change is attempted. -/
theorem curse_delete_failure_keeps_ledger (fileRead : Option (List String))
    (content : String) (tr pr : Bool) (prior : Nat)
    (hfound : detect_curse_words fileRead content ≠ []) :
    check_for_curse_words fileRead content false tr pr prior
      = ⟨false, false, none, EscalationAction.none⟩ := by
  have hl : (detect_curse_words fileRead content).isEmpty = false := by
    cases hd : detect_curse_words fileRead content
    · exact absurd hd hfound
    · rfl
  simp [check_for_curse_words, hl]

/-- Witness for C10: a message that does contain a banned term, with the
delete call failing. -/
theorem curse_delete_failure_keeps_ledger_witness :
    check_for_curse_words (some [("badword")]) ("badword") false true true 3
      = ⟨false, false, none, EscalationAction.none⟩ :=
  curse_delete_failure_keeps_ledger (some [("badword")]) ("badword") true true 3
    (by decide)

/-- C7: the mass-mention check warns exactly when the number of mentions plus
role mentions is strictly greater than 5, and it never requests a deletion of
the message. -/
theorem mass_mention_boundary (m r w : Nat) :
    (ModAction.warnMessage ("mass_mentions") ∈ (check_for_mass_mentions m r w).1
      ↔ 5 < m + r) ∧
    ModAction.deleteMessage ∉ (check_for_mass_mentions m r w).1 := by
  unfold check_for_mass_mentions max_mentions
  constructor
  · by_cases h : 5 < m + r <;> simp [h]
  · by_cases h : 5 < m + r <;> simp [h]

/-- C2: for the curse category, a new warning total of 1 yields no timeout;
totals 2 through 5 yield a timeout of the duration the table maps to the
total, which is positive; totals of 6 or more yield the role swap, falling
back to a timeout when the member or demoted role is unresolvable; and once
the total is at least 2 the outcome is never deletion-only.  The final
conjunct ties the policy to the full curse path: whenever words are detected
and the deletion succeeds, the check deletes, appends one ledger record and
applies exactly this policy to the new total. -/
theorem curse_escalation_policy (tr pr : Bool) :
    curse_escalation 1 tr pr = EscalationAction.none ∧
    (∀ c, 2 ≤ c → c ≤ 5 →
      curse_escalation c tr pr = EscalationAction.timeout (get_timeout_duration c) ∧
        0 < get_timeout_duration c) ∧
    (∀ c, 6 ≤ c → curse_escalation c true true = EscalationAction.roleSwap) ∧
    (∀ c, 6 ≤ c → (tr && pr) = false →
      curse_escalation c tr pr = EscalationAction.timeout (get_timeout_duration c)) ∧
    (∀ c, 2 ≤ c → curse_escalation c tr pr ≠ EscalationAction.none) ∧
    (∀ fileRead content prior,
      detect_curse_words fileRead content ≠ [] →
      (check_for_curse_words fileRead content true tr pr prior).action
          = curse_escalation (add_warning prior) tr pr ∧
        (check_for_curse_words fileRead content true tr pr prior).deleted = true ∧
        (check_for_curse_words fileRead content true tr pr prior).ledger_count
          = some (add_warning prior)) := by
  refine ⟨by cases tr <;> cases pr <;> decide, ?_, ?_, ?_, ?_, ?_⟩
  · intro c h2 h5
    interval_cases c <;> cases tr <;> cases pr <;> exact ⟨by decide, by decide⟩
  · intro c h6
    have hd : get_timeout_duration c = 10800 := by
      simp only [get_timeout_duration]
      rw [if_neg (by omega), if_neg (by omega), if_neg (by omega),
        if_neg (by omega), if_neg (by omega)]
    simp [curse_escalation, hd, h6]
  · intro c h6 hroles
    have hd : get_timeout_duration c = 10800 := by
      simp only [get_timeout_duration]
      rw [if_neg (by omega), if_neg (by omega), if_neg (by omega),
        if_neg (by omega), if_neg (by omega)]
    simp [curse_escalation, hd, h6, hroles]
  · intro c h2
    by_cases h6 : 6 ≤ c
    · have hd : get_timeout_duration c = 10800 := by
        simp only [get_timeout_duration]
        rw [if_neg (by omega), if_neg (by omega), if_neg (by omega),
          if_neg (by omega), if_neg (by omega)]
      cases tr <;> cases pr <;> simp [curse_escalation, hd, h6]
    · have h5 : c ≤ 5 := by omega
      interval_cases c <;> cases tr <;> cases pr <;> decide
  · intro fileRead content prior hfound
    have hl : (detect_curse_words fileRead content).isEmpty = false := by
      cases hd : detect_curse_words fileRead content
      · exact absurd hd hfound
      · rfl
    refine ⟨?_, ?_, ?_⟩ <;> simp [check_for_curse_words, hl]

/-- Witness for C2 at concrete warning totals and a concrete detected term. -/
theorem curse_escalation_policy_witness :
    curse_escalation 3 true true = EscalationAction.timeout (get_timeout_duration 3) ∧
    curse_escalation 7 true true = EscalationAction.roleSwap ∧
    curse_escalation 7 true false = EscalationAction.timeout (get_timeout_duration 7) ∧
    (check_for_curse_words (some [("badword")]) ("badword") true true true 0).deleted
      = true := by
  refine ⟨((curse_escalation_policy true true).2.1 3 (by omega) (by omega)).1,
    (curse_escalation_policy true true).2.2.1 7 (by omega),
    (curse_escalation_policy true false).2.2.2.1 7 (by omega) (by decide),
    ((curse_escalation_policy true true).2.2.2.2.2 (some [("badword")]) ("badword") 0
      (by decide)).2.1⟩

/-- C5: the fuzzy strategy of `check_for_curse_words` is intended — by the
spec and by the comment at line 214 of the source — to build the bounded
pattern `first.\x7b1,m\x7d?last` and accept a match whose span is at least 70
percent of the term length.  The f-string at line 218 instead renders its
inner braces as the Python tuple `(1, \x7bm\x7d)`, producing a pattern that
requires the literal text `\x7b1,` and `m` spaces after the first character,
so an obfuscated term such as `d**n` for the banned term `damn` is not
matched, while the pattern the spec describes matches it; moreover the stray
group makes `re.findall` return the group capture, so the 70 percent test is
applied to the capture and not to the matched span. -/
theorem fuzzy_pattern_construction_bug :
    buildFuzzyPattern ("damn") = ("d.\x7b(1, \x7b2\x7d)\x7d?n") ∧
    specFuzzyPattern ("damn") = ("d.\x7b1,2\x7d?n") ∧
    buildFuzzyPattern ("damn") ≠ specFuzzyPattern ("damn") ∧
    method4Matches ("damn").data ("d**n").data = false ∧
    specFuzzyMatches ("damn") ("d**n") = true ∧
    detect_curse_words (some [("damn")]) ("d**n") = [] := by decide

/-- Cleanup predicate evaluated at a document the raid path itself wrote. -/
lemma raidDead_event (g u : Nat) (t now : Int) :
    raidDeadAt g u now (raidEvent g u t) = decide (t < now - 5) := by
  simp [raidDeadAt, raidMatch, raidEvent, raid_timeframe]

/-- Count predicate evaluated at a document the raid path itself wrote. -/
lemma raidLive_event (g u : Nat) (t now : Int) :
    raidLiveAt g u now (raidEvent g u t) = decide (now - 5 ≤ t) := by
  simp [raidLiveAt, raidMatch, raidEvent, raid_timeframe]

/-- Counterexample to C1 as stated.  A plain (non-command) message — in
particular the 5th message of any 5-messages-in-5-seconds burst of plain
messages — is routed by `handle` to the four content stages only: every one
of those stages runs (nothing is suppressed), and the raid stage, the only
stage that issues the immediate 5-minute timeout, is not among them.  The
raid check is reached only through `run_moderation_checks`, which `handle`
spawns only on its command branch. -/
theorem plain_messages_never_reach_raid_check :
    handleChecks ("!") ⟨false, ("hello everyone"), some 1⟩ true = plainMessageChecks ∧
    Check.raid ∉ plainMessageChecks ∧
    Check.massMentions ∈ plainMessageChecks ∧
    Check.spam ∈ plainMessageChecks ∧
    Check.massEmoji ∈ plainMessageChecks ∧
    Check.excessiveCaps ∈ plainMessageChecks := by decide

/-- C1 as amended: five messages that each reach the background moderation
pass (command-prefixed messages, lines 126-127 of the source) within 5
seconds from one user in one community make the raid check fire on the 5th
pass — the count reaches 5, the immediate 5-minute (300 second) timeout is
applied, and the check returns true, which makes `run_moderation_checks` skip
every later stage of that pass.  Plain messages, by contrast, never run the
raid check at all. -/
theorem raid_fires_on_fifth_command_burst (g u : Nat) (t0 t1 t2 t3 t4 : Int)
    (h01 : t0 ≤ t1) (h12 : t1 ≤ t2) (h23 : t2 ≤ t3) (h34 : t3 ≤ t4)
    (hwin : t4 ≤ t0 + 5) :
    (raidBurstRun g u t0 t1 t2 t3 t4).count = 5 ∧
    (raidBurstRun g u t0 t1 t2 t3 t4).handled = true ∧
    (raidBurstRun g u t0 t1 t2 t3 t4).actions = [ModAction.timeout 300] ∧
    run_moderation_checks_stages false true = [Check.curse, Check.raid] ∧
    Check.massMentions ∉ run_moderation_checks_stages false true ∧
    Check.spam ∉ run_moderation_checks_stages false true ∧
    Check.massEmoji ∉ run_moderation_checks_stages false true ∧
    Check.excessiveCaps ∉ run_moderation_checks_stages false true ∧
    (∀ marker msg b, startsWithLower marker msg.content = false →
      Check.raid ∉ handleChecks marker msg b) := by
  have s1 : (check_for_raid_activity [] g u t0 true).store = [raidEvent g u t0] := by
    simp [check_for_raid_activity]
  have s2 : (check_for_raid_activity [raidEvent g u t0] g u t1 true).store
      = [raidEvent g u t0, raidEvent g u t1] := by
    simp [check_for_raid_activity, raidDead_event,
      decide_eq_false (show ¬(t0 < t1 - 5) by omega)]
  have s3 : (check_for_raid_activity [raidEvent g u t0, raidEvent g u t1] g u t2
        true).store
      = [raidEvent g u t0, raidEvent g u t1, raidEvent g u t2] := by
    simp [check_for_raid_activity, raidDead_event,
      decide_eq_false (show ¬(t0 < t2 - 5) by omega),
      decide_eq_false (show ¬(t1 < t2 - 5) by omega)]
  have s4 : (check_for_raid_activity
        [raidEvent g u t0, raidEvent g u t1, raidEvent g u t2] g u t3 true).store
      = [raidEvent g u t0, raidEvent g u t1, raidEvent g u t2, raidEvent g u t3] := by
    simp [check_for_raid_activity, raidDead_event,
      decide_eq_false (show ¬(t0 < t3 - 5) by omega),
      decide_eq_false (show ¬(t1 < t3 - 5) by omega),
      decide_eq_false (show ¬(t2 < t3 - 5) by omega)]
  have hrun : raidBurstRun g u t0 t1 t2 t3 t4
      = check_for_raid_activity
          [raidEvent g u t0, raidEvent g u t1, raidEvent g u t2, raidEvent g u t3]
          g u t4 true := by
    unfold raidBurstRun
    rw [s1, s2, s3, s4]
  have hfinal : check_for_raid_activity
        [raidEvent g u t0, raidEvent g u t1, raidEvent g u t2, raidEvent g u t3]
        g u t4 true
      = ⟨[raidEvent g u t0, raidEvent g u t1, raidEvent g u t2, raidEvent g u t3,
          raidEvent g u t4], 5, [ModAction.timeout 300], true⟩ := by
    simp [check_for_raid_activity, raidDead_event, raidLive_event, raid_threshold,
      List.filter_cons, List.filter_nil,
      decide_eq_false (show ¬(t0 < t4 - 5) by omega),
      decide_eq_false (show ¬(t1 < t4 - 5) by omega),
      decide_eq_false (show ¬(t2 < t4 - 5) by omega),
      decide_eq_false (show ¬(t3 < t4 - 5) by omega),
      decide_eq_true (show t4 - 5 ≤ t0 by omega),
      decide_eq_true (show t4 - 5 ≤ t1 by omega),
      decide_eq_true (show t4 - 5 ≤ t2 by omega),
      decide_eq_true (show t4 - 5 ≤ t3 by omega),
      decide_eq_true (show t4 - 5 ≤ t4 by omega)]
    simp [show t4 ≤ t0 + 5 by omega, show t4 ≤ t1 + 5 by omega,
      show t4 ≤ t2 + 5 by omega, show t4 ≤ t3 + 5 by omega]
  rw [hrun, hfinal]
  refine ⟨rfl, rfl, rfl, by decide, by decide, by decide, by decide, by decide, ?_⟩
  intro marker msg b hns
  unfold handleChecks
  split
  · simp
  · rw [hns]
    simp [plainMessageChecks]

/-- Witness for the amended C1 at concrete times 0..4 and a concrete plain
message. -/
theorem raid_fires_on_fifth_command_burst_witness :
    (raidBurstRun 1 2 0 1 2 3 4).handled = true ∧
    (raidBurstRun 1 2 0 1 2 3 4).actions = [ModAction.timeout 300] ∧
    Check.raid ∉ handleChecks ("!") ⟨false, ("hi"), some 1⟩ true := by
  have h := raid_fires_on_fifth_command_burst 1 2 0 1 2 3 4 (by omega) (by omega)
    (by omega) (by omega) (by omega)
  exact ⟨h.2.1, h.2.2.1,
    h.2.2.2.2.2.2.2.2 ("!") ⟨false, ("hi"), some 1⟩ true (by decide)⟩

/-- Count predicate evaluated at a document the spam path itself wrote. -/
lemma spamLive_event (g u : Nat) (h t now : Int) :
    spamLiveAt g u h now (spamEvent g u h t) = decide (now - 30 ≤ t) := by
  simp [spamLiveAt, spamMatch, spamEvent, spam_timeframe]

/-- Unfolding equation for one step of `runSpamSequence`. -/
lemma runSpamSequence_cons (g u : Nat) (h t : Int) (ts : List Int)
    (s : List TimedEvent) :
    runSpamSequence g u h (t :: ts) s
      = ((runSpamSequence g u h ts (s ++ [spamEvent g u h t])).1,
          (check_for_spam s g u h t).warned
            :: (runSpamSequence g u h ts (s ++ [spamEvent g u h t])).2) := rfl

/-- With at most 3 stored documents the spam count cannot reach the threshold,
whatever the query time: no warning. -/
lemma spam_warned_le (s : List TimedEvent) (g u : Nat) (h t : Int)
    (hlen : s.length ≤ 3) : (check_for_spam s g u h t).warned = false := by
  have h1 : ((s ++ [spamEvent g u h t]).filter (spamLiveAt g u h t)).length
      ≤ s.length + 1 := by
    calc ((s ++ [spamEvent g u h t]).filter (spamLiveAt g u h t)).length
        ≤ (s ++ [spamEvent g u h t]).length := List.length_filter_le _ _
      _ = s.length + 1 := by simp
  simp only [check_for_spam, spam_threshold]
  exact decide_eq_false (by omega)

/-- A document that is outside the spam window at time `t` is still outside it
at any later time. -/
lemma spamLiveAt_mono_false (g u : Nat) (h t now : Int) (e : TimedEvent)
    (hle : t ≤ now) (hq : spamLiveAt g u h t e = false) :
    spamLiveAt g u h now e = false := by
  unfold spamLiveAt at hq ⊢
  cases hsm : spamMatch g u h e
  · simp [hsm]
  · simp [hsm, spam_timeframe] at hq ⊢
    omega

/-- Messages spaced at least 31 seconds apart never accumulate in the
30-second window: every spam count along the sequence is 1, so no step warns.
The quietness hypothesis says that at the time of the next message nothing
stored is inside the window. -/
lemma spam_quiet_aux (g u : Nat) (h : Int) :
    ∀ (times : List Int) (s : List TimedEvent),
      List.Chain' (fun a b => a + 31 ≤ b) times →
      (∀ t, times.head? = some t → ∀ e ∈ s, spamLiveAt g u h t e = false) →
      ∀ f ∈ (runSpamSequence g u h times s).2, f = false := by
  intro times
  induction times with
  | nil =>
    intro s _ _ f hf
    simp [runSpamSequence] at hf
  | cons t ts ih =>
    intro s hchain hquiet f hf
    rw [runSpamSequence_cons] at hf
    rcases List.mem_cons.mp hf with hf | hf
    · subst hf
      have hfl : s.filter (spamLiveAt g u h t) = [] :=
        List.filter_eq_nil_iff.mpr (fun e he => by simp [hquiet t rfl e he])
      simp [check_for_spam, spam_threshold, List.filter_append, hfl,
        List.filter_cons, List.filter_nil, spamLive_event,
        decide_eq_true (show t - 30 ≤ t by omega)]
    · have hrel : ∀ b ∈ ts.head?, t + 31 ≤ b := (List.chain'_cons'.mp hchain).1
      refine ih (s ++ [spamEvent g u h t]) (List.chain'_cons'.mp hchain).2 ?_ f hf
      intro t' ht' e he
      have hgap : t + 31 ≤ t' := hrel t' ht'
      rcases List.mem_append.mp he with he | he
      · exact spamLiveAt_mono_false g u h t t' e (by omega) (hquiet t rfl e he)
      · rcases List.mem_singleton.mp he with rfl
        simp only [spamLive_event, decide_eq_false_iff_not]
        omega

/-- C4: five messages with identical case-folded content (hence equal content
hash `h`) within 30 seconds from one user in one community, starting from a
collection with no matching documents, warn exactly on the 5th; and a
sequence of such messages spaced 31 or more seconds apart never warns. -/
theorem spam_warning_exactly_on_fifth (g u : Nat) (h : Int) :
    (∀ t0 t1 t2 t3 t4 : Int, t0 ≤ t1 → t1 ≤ t2 → t2 ≤ t3 → t3 ≤ t4 →
      t4 ≤ t0 + 30 →
      (runSpamSequence g u h [t0, t1, t2, t3, t4] []).2
        = [false, false, false, false, true]) ∧
    (∀ times : List Int, List.Chain' (fun a b => a + 31 ≤ b) times →
      ∀ f ∈ (runSpamSequence g u h times []).2, f = false) := by
  constructor
  · intro t0 t1 t2 t3 t4 h01 h12 h23 h34 hwin
    rw [runSpamSequence_cons, runSpamSequence_cons, runSpamSequence_cons,
      runSpamSequence_cons, runSpamSequence_cons]
    simp only [List.nil_append, List.cons_append, runSpamSequence]
    have w4 : (check_for_spam [spamEvent g u h t0, spamEvent g u h t1,
        spamEvent g u h t2, spamEvent g u h t3] g u h t4).warned = true := by
      simp [check_for_spam, spam_threshold, List.filter_cons, List.filter_nil,
        spamLive_event,
        decide_eq_true (show t4 - 30 ≤ t0 by omega),
        decide_eq_true (show t4 - 30 ≤ t1 by omega),
        decide_eq_true (show t4 - 30 ≤ t2 by omega),
        decide_eq_true (show t4 - 30 ≤ t3 by omega),
        decide_eq_true (show t4 - 30 ≤ t4 by omega)]
      simp [show t4 ≤ t0 + 30 by omega, show t4 ≤ t1 + 30 by omega,
        show t4 ≤ t2 + 30 by omega, show t4 ≤ t3 + 30 by omega]
    rw [spam_warned_le [] g u h t0 (by simp),
      spam_warned_le [spamEvent g u h t0] g u h t1 (by simp),
      spam_warned_le [spamEvent g u h t0, spamEvent g u h t1] g u h t2 (by simp),
      spam_warned_le [spamEvent g u h t0, spamEvent g u h t1, spamEvent g u h t2]
        g u h t3 (by simp),
      w4]
  · intro times hchain f hf
    exact spam_quiet_aux g u h times [] hchain
      (fun t _ e he => absurd he (List.not_mem_nil e)) f hf

/-- Witness for C4: a concrete 5-in-30-seconds burst and a concrete spaced
sequence. -/
theorem spam_warning_exactly_on_fifth_witness :
    (runSpamSequence 1 2 7 [0, 5, 10, 20, 30] []).2
      = [false, false, false, false, true] ∧
    (∀ f ∈ (runSpamSequence 1 2 7 [0, 40, 80] []).2, f = false) := by
  refine ⟨(spam_warning_exactly_on_fifth 1 2 7).1 0 5 10 20 30 (by omega) (by omega)
    (by omega) (by omega) (by omega),
    (spam_warning_exactly_on_fifth 1 2 7).2 [0, 40, 80] ?_⟩
  simp [List.chain'_cons]

/-- A document matched by the raid query has the raid scope and category. -/
lemma raidMatch_fields (g u : Nat) (e : TimedEvent)
    (hm : raidMatch g u e = true) :
    e.guild_id = g ∧ e.user_id = u ∧ e.action_type = "message" := by
  unfold raidMatch at hm
  simp only [Bool.and_eq_true, beq_iff_eq] at hm
  exact ⟨hm.1.1, hm.1.2, hm.2⟩

/-- A document matched by the spam query has the spam scope, category and
fingerprint. -/
lemma spamMatch_fields (g u : Nat) (h : Int) (e : TimedEvent)
    (hm : spamMatch g u h e = true) :
    e.guild_id = g ∧ e.user_id = u ∧ e.action_type = "spam_check"
      ∧ e.content_hash = h := by
  unfold spamMatch at hm
  simp only [Bool.and_eq_true, beq_iff_eq] at hm
  exact ⟨hm.1.1.1, hm.1.1.2, hm.1.2, hm.2⟩

/-- A document inside the raid count window is not hit by the raid cleanup. -/
lemma live_and_notdead (g u : Nat) (now : Int) (e : TimedEvent) :
    (raidLiveAt g u now e && !(raidDeadAt g u now e)) = raidLiveAt g u now e := by
  unfold raidDeadAt raidLiveAt
  cases hm : raidMatch g u e
  · simp
  · simp only [Bool.true_and]
    by_cases hts : now - raid_timeframe ≤ e.timestamp
    · have h1 : ¬ (e.timestamp < now - raid_timeframe) := by omega
      simp [hts, h1]
    · simp [hts]

/-- The spam count is the number of stored documents inside the window plus
one for the document just inserted. -/
lemma spam_count_formula (s : List TimedEvent) (g u : Nat) (h now : Int) :
    (check_for_spam s g u h now).count
      = (s.filter (spamLiveAt g u h now)).length + 1 := by
  unfold check_for_spam
  simp [List.filter_append, List.filter_cons, List.filter_nil, spamLive_event,
    decide_eq_true (show now - 30 ≤ now by omega)]

/-- The raid count is the number of stored documents inside the window plus
one for the document just inserted: the cleanup removes no document the count
would have seen. -/
lemma raid_count_formula (s : List TimedEvent) (g u : Nat) (now : Int)
    (ok : Bool) :
    (check_for_raid_activity s g u now ok).count
      = (s.filter (raidLiveAt g u now)).length + 1 := by
  unfold check_for_raid_activity
  simp only [List.filter_append, List.filter_cons, List.filter_nil,
    raidLive_event, decide_eq_true (show now - 5 ≤ now by omega), if_pos,
    List.length_append, List.filter_filter, live_and_notdead, List.length_cons,
    List.length_nil]

/-- Counterexample to C3 as stated for the spam instantiation: a stored
matching document whose expiry is long past is still in the collection after
the record operation — `check_for_spam` never prunes. -/
theorem spam_record_skips_prune :
    (TimedEvent.mk 1 2 ("spam_check") 5 0 30).expires_at < 100 ∧
    TimedEvent.mk 1 2 ("spam_check") 5 0 30
      ∈ (check_for_spam [TimedEvent.mk 1 2 ("spam_check") 5 0 30]
          1 2 5 100).store := by decide

/-- C3 as amended.  The raid instantiation prunes exactly the matching
documents outside the window (for well-formed collections these are the ones
whose expiry has passed), inserts the new document with
`expires_at = now + 5`, and returns the count of in-window matching documents
including the new one.  The spam instantiation performs no prune: every
stored document is retained; it only inserts the new document with
`expires_at = now + 30` and returns the count of in-window matching
documents including the new one. -/
theorem window_record_behaviour (s : List TimedEvent) (g u : Nat) (h now : Int)
    (ok : Bool) (hwf : storeWellFormed s) :
    ((check_for_spam s g u h now).store = s ++ [spamEvent g u h now]) ∧
    (∀ e ∈ s, e ∈ (check_for_spam s g u h now).store) ∧
    (spamEvent g u h now).expires_at = now + 30 ∧
    ((check_for_spam s g u h now).count
      = (s.filter (spamLiveAt g u h now)).length + 1) ∧
    (∀ e ∈ s, raidMatch g u e = true → e.expires_at < now →
      e ∉ (check_for_raid_activity s g u now ok).store) ∧
    (∀ e ∈ s, raidDeadAt g u now e = false →
      e ∈ (check_for_raid_activity s g u now ok).store) ∧
    raidEvent g u now ∈ (check_for_raid_activity s g u now ok).store ∧
    (raidEvent g u now).expires_at = now + 5 ∧
    ((check_for_raid_activity s g u now ok).count
      = (s.filter (raidLiveAt g u now)).length + 1) := by
  refine ⟨rfl, ?_, by simp [spamEvent, spam_timeframe], spam_count_formula s g u h now,
    ?_, ?_, ?_, by simp [raidEvent, raid_timeframe], raid_count_formula s g u now ok⟩
  · intro e he
    exact List.mem_append.mpr (Or.inl he)
  · intro e he hm hexp
    have hty : e.action_type = "message" := (raidMatch_fields g u e hm).2.2
    have hts : e.timestamp < now - raid_timeframe := by
      have hx := (hwf e he).2 hty
      simp only [raid_timeframe] at hx ⊢
      omega
    have hdead : raidDeadAt g u now e = true := by
      unfold raidDeadAt
      simp [hm, hts]
    intro hmem
    rcases List.mem_append.mp hmem with hmem | hmem
    · have := (List.mem_filter.mp hmem).2
      simp [hdead] at this
    · rcases List.mem_singleton.mp hmem with rfl
      simp only [raidEvent, raid_timeframe] at hexp
      omega
  · intro e he hd
    exact List.mem_append.mpr (Or.inl (List.mem_filter.mpr ⟨he, by simp [hd]⟩))
  · exact List.mem_append.mpr (Or.inr (List.mem_singleton.mpr rfl))

/-- Witness for the amended C3 at a concrete well-formed collection. -/
theorem window_record_behaviour_witness :
    ((check_for_spam [spamEvent 1 2 5 0] 1 2 5 10).count
      = (([spamEvent 1 2 5 0]).filter (spamLiveAt 1 2 5 10)).length + 1) ∧
    raidEvent 1 2 10 ∈ (check_for_raid_activity [spamEvent 1 2 5 0] 1 2 10 true).store := by
  have hw : storeWellFormed [spamEvent 1 2 5 0] := by
    unfold storeWellFormed
    decide
  have hmain := window_record_behaviour [spamEvent 1 2 5 0] 1 2 5 10 true hw
  exact ⟨hmain.2.2.2.1, hmain.2.2.2.2.2.2.1⟩

/-- C6: the counts both window queries return never include a document whose
expiry has already passed — for any well-formed collection and any query
time, every document selected by either count predicate has
`expires_at >= now`; and both record operations preserve well-formedness, so
this holds at every reachable collection state. -/
theorem live_count_excludes_expired (s : List TimedEvent) (g u : Nat)
    (h now : Int) (ok : Bool) (hwf : storeWellFormed s) :
    (∀ e ∈ s.filter (spamLiveAt g u h now), ¬ e.expires_at < now) ∧
    (∀ e ∈ s.filter (raidLiveAt g u now), ¬ e.expires_at < now) ∧
    storeWellFormed (check_for_spam s g u h now).store ∧
    storeWellFormed (check_for_raid_activity s g u now ok).store := by
  refine ⟨?_, ?_, ?_, ?_⟩
  · intro e he
    have hmem := List.mem_filter.mp he
    have hl := hmem.2
    unfold spamLiveAt at hl
    simp only [Bool.and_eq_true] at hl
    obtain ⟨hm, hts⟩ := hl
    have hty : e.action_type = "spam_check" := (spamMatch_fields g u h e hm).2.2.1
    have hexp := (hwf e hmem.1).1 hty
    simp only [decide_eq_true_eq, spam_timeframe] at hts hexp ⊢
    omega
  · intro e he
    have hmem := List.mem_filter.mp he
    have hl := hmem.2
    unfold raidLiveAt at hl
    simp only [Bool.and_eq_true] at hl
    obtain ⟨hm, hts⟩ := hl
    have hty : e.action_type = "message" := (raidMatch_fields g u e hm).2.2
    have hexp := (hwf e hmem.1).2 hty
    simp only [decide_eq_true_eq, raid_timeframe] at hts hexp ⊢
    omega
  · intro e he
    rcases List.mem_append.mp he with he | he
    · exact hwf e he
    · rcases List.mem_singleton.mp he with rfl
      constructor
      · intro _
        rfl
      · intro hx
        simp [spamEvent] at hx
  · intro e he
    rcases List.mem_append.mp he with he | he
    · exact hwf e (List.mem_filter.mp he).1
    · rcases List.mem_singleton.mp he with rfl
      constructor
      · intro hx
        simp [raidEvent] at hx
      · intro _
        rfl

/-- Witness for C6 at a concrete well-formed collection holding one expired
and one live document. -/
theorem live_count_excludes_expired_witness :
    (∀ e ∈ ([spamEvent 1 2 5 0, spamEvent 1 2 5 90]).filter (spamLiveAt 1 2 5 100),
      ¬ e.expires_at < 100) ∧
    storeWellFormed (check_for_spam [spamEvent 1 2 5 0, spamEvent 1 2 5 90]
      1 2 5 100).store := by
  have hw : storeWellFormed [spamEvent 1 2 5 0, spamEvent 1 2 5 90] := by
    unfold storeWellFormed
    decide
  have hmain := live_count_excludes_expired [spamEvent 1 2 5 0, spamEvent 1 2 5 90]
    1 2 5 100 true hw
  exact ⟨hmain.1, hmain.2.2.1⟩
